/-
Verification of the chat-driven bookkeeping ledger (app.py / bot.py).

The embedding works over exact rational arithmetic (ℚ): the Python source
computes with binary floats and `Decimal`, which we idealize as the exact
decimal values the code manipulates.  All rounding policies of the source
(`round(x, n)` = round-half-even at n decimals, `math.floor`) are modelled
exactly.  Text commands are modelled as `List Char`, matching the source's
string dispatch.  The persistence layer `database.py` is not part of the
source tree; operations of that module are marked `Modelled from the spec:`
in their doc comment and follow the specification's description.
-/
import Mathlib

/-! ## Numeric policies (app.py lines 74-90, bot.py lines 64-80) -/

/-- Python `round` to an integer: round-half-even on the exact value. -/
def roundHalfEvenInt (x : ℚ) : ℤ :=
  if x - ⌊x⌋ < 1/2 then ⌊x⌋
  else if 1/2 < x - ⌊x⌋ then ⌊x⌋ + 1
  else if ⌊x⌋ % 2 = 0 then ⌊x⌋ else ⌊x⌋ + 1

/-- Python `round(x, n)`: round-half-even at `n` decimal digits. -/
def pyRound (x : ℚ) (n : ℕ) : ℚ :=
  ((roundHalfEvenInt (x * 10 ^ n) : ℤ) : ℚ) / 10 ^ n

/-- Source `trunc2`: `rounded = round(x, 6); math.floor(rounded * 100.0) / 100.0`. -/
def trunc2 (x : ℚ) : ℚ :=
  ((⌊pyRound x 6 * 100⌋ : ℤ) : ℚ) / 100

/-- Source `round2`: `round(x, 2)`. -/
def round2 (x : ℚ) : ℚ := pyRound x 2

/-- Follows the spec's words (§4.2 Withdrawal, §4.4 sent): standard
round-half-up at 2 decimals; used to compare the spec's stated policy with
the source's `round2`/`trunc2`. -/
def specRound2Up (x : ℚ) : ℚ :=
  ((⌊x * 100 + 1/2⌋ : ℤ) : ℚ) / 100

/-- Follows the spec's words (§4.2 Deposit `floor2`): truncation toward zero
at 2 decimal digits, never rounding up in magnitude. -/
def specTrunc2Zero (x : ℚ) : ℚ :=
  ((if 0 ≤ x then ⌊x * 100⌋ else -⌊-(x * 100)⌋ : ℤ) : ℚ) / 100

/-! ## Data model

`Transaction` rows as written by `db.add_transaction` (app.py lines 720-731,
bot.py lines 682-693): `amount` is the raw amount, `usdt` the converted
amount, `message_id` the external reference attached after the summary
message is sent.  The free-text `country` tag and the operator display name
are not modelled (no claim concerns them).  Timestamps are abstract ticks. -/

inductive TxType
  | din
  | dout
  | dsend
deriving DecidableEq, Repr

structure Tx where
  chatId : ℤ
  txType : TxType
  amount : ℚ
  rate : ℚ
  fx : ℚ
  usdt : ℚ
  operatorId : ℤ
  createdAt : ℕ
  messageId : Option ℤ
deriving DecidableEq, Repr

/-- Per-group rate configuration (`in_rate` / `in_fx` / `out_rate` / `out_fx`). -/
structure GroupConfig where
  inRate : ℚ
  inFx : ℚ
  outRate : ℚ
  outFx : ℚ
deriving DecidableEq, Repr

/-- A group starts unconfigured: all rates and fx zero (spec §4.1). -/
def defaultGroupConfig : GroupConfig := ⟨0, 0, 0, 0⟩

/-- The persistent state the group-message handler can touch: the transaction
log, the per-chat configuration (modelled as a total map with the zero-valued
default, matching `get_group_config` auto-creating a default row), and the
bot-admin set (user ids; the stored names are not modelled). -/
structure BotState where
  txs : List Tx
  configs : ℤ → GroupConfig
  admins : List ℤ

/-- Data of a replied-to message, used by the admin-management and 撤销
branches. -/
structure ReplyTo where
  userId : ℤ
  msgId : ℤ
deriving DecidableEq, Repr

/-- Coarse classification of the handler's reply, enough to state the claims. -/
inductive Reply
  | silent
  | adminList
  | adminAdded
  | adminRemoved
  | needReply
  | undoOk
  | undoNotFound
  | resetOk
  | clearOk
  | setOk
  | needConfig
  | formatError
  | summary
  | fullSummary
deriving DecidableEq, Repr

/-- Characters of a string literal (commands are matched as `List Char`). -/
def strL (s : String) : List Char := s.data

/-! ## Parsing helpers (bot.py lines 135-146, app.py lines 153-161) -/

/-- Numeric value of a (checked) digit list, most significant first. -/
def digitsNatVal (cs : List Char) : ℕ :=
  cs.foldl (fun a c => 10 * a + (c.toNat - 48)) 0

/-- `parse_amount_and_country`, amount part: regex
`^[\+\-]\s*([0-9]+(?:\.[0-9]+)?)` applied to the stripped text; the sign is
outside the capture group, so the returned amount is the unsigned magnitude.
`\s` is modelled as the space character.  The `country` capture is not
modelled (no claim concerns it). -/
def parseAmountChars : List Char → Option ℚ
  | [] => none
  | c :: rest =>
    if c = '+' ∨ c = '-' then
      let r1 := rest.dropWhile (fun ch => ch == ' ')
      let ds := r1.takeWhile Char.isDigit
      if ds = [] then none
      else
        let r2 := r1.dropWhile Char.isDigit
        match r2 with
        | '.' :: more =>
          let fs := more.takeWhile Char.isDigit
          if fs = [] then some (digitsNatVal ds : ℚ)
          else some ((digitsNatVal ds : ℚ) + (digitsNatVal fs : ℚ) / 10 ^ fs.length)
        | _ => some (digitsNatVal ds : ℚ)
    else none

/-- Python `float(s)` on an already-stripped decimal literal:
`digits`, `digits.`, `digits.digits` or `.digits`; anything else raises
`ValueError` (modelled as `none`).  Exponent/infinity forms accepted by
`float` are not modelled: no command in the claims uses them. -/
def parseDecChars (cs : List Char) : Option ℚ :=
  let ds := cs.takeWhile Char.isDigit
  let rest := cs.dropWhile Char.isDigit
  match rest with
  | [] => if ds = [] then none else some (digitsNatVal ds : ℚ)
  | '.' :: frac =>
    let fs := frac.takeWhile Char.isDigit
    let rest2 := frac.dropWhile Char.isDigit
    if rest2 = [] then
      if ds = [] ∧ fs = [] then none
      else some ((digitsNatVal ds : ℚ) + (digitsNatVal fs : ℚ) / 10 ^ fs.length)
    else none
  | _ => none

/-- Python `float(s)` including an optional leading sign. -/
def parseSignedFloatChars : List Char → Option ℚ
  | [] => none
  | c :: rest =>
    if c = '-' then (parseDecChars rest).map (fun q => -q)
    else if c = '+' then parseDecChars rest
    else parseDecChars (c :: rest)

/-- Python `str.strip()` restricted to spaces. -/
def stripEnds (cs : List Char) : List Char :=
  ((cs.dropWhile (fun ch => ch == ' ')).reverse.dropWhile (fun ch => ch == ' ')).reverse

/-- Python `text.replace("下发", "")`: removes every non-overlapping
occurrence, scanning left to right. -/
def removeXiafa : List Char → List Char
  | '下' :: '发' :: rest => removeXiafa rest
  | c :: rest => c :: removeXiafa rest
  | [] => []

/-! ## Store operations

`database.py` is not part of the source tree; these operations are modelled
from the specification's description of TransactionStore / AdminSet. -/

/-- Modelled from the spec: `db.add_transaction` appends the record to the
chat's ordered log (`TransactionStore.append`, §4.3); the record is created
without an external reference. -/
def addTransaction (txs : List Tx) (t : Tx) : List Tx := txs ++ [t]

/-- Modelled from the spec: `db.update_transaction_message_id` attaches the
external reference to the just-created record (the handlers call it with the
id returned by `add_transaction`, i.e. the last appended row). -/
def attachLastMsgId : List Tx → ℤ → List Tx
  | [], _ => []
  | [t], m => [{ t with messageId := some m }]
  | t :: rest, m => t :: attachLastMsgId rest m

/-- Modelled from the spec: `db.delete_transaction_by_message_id` finds at
most one transaction with the matching reference among all stored
transactions, deletes it and returns it; if none matches it returns `None`
without mutation (`remove_by_external_ref`, §4.3). -/
def removeByMessageId : List Tx → ℤ → Option Tx × List Tx
  | [], _ => (none, [])
  | t :: rest, m =>
    if t.messageId = some m then (some t, rest)
    else
      let p := removeByMessageId rest m
      (p.1, t :: p.2)

/-- Modelled from the spec: `db.clear_today_transactions` deletes the chat's
transactions created at or after the start of the current local day and
returns per-kind statistics (the statistics are not modelled). -/
def clearTodayTxs (txs : List Tx) (chatId : ℤ) (dayStart : ℕ) : List Tx :=
  txs.filter (fun t => decide ¬(t.chatId = chatId ∧ dayStart ≤ t.createdAt))

/-- Modelled from the spec: `db.is_admin` is membership in the AdminSet. -/
def isAdminId (admins : List ℤ) (uid : ℤ) : Bool := decide (uid ∈ admins)

/-- Modelled from the spec: `db.add_admin` upserts into the AdminSet. -/
def addAdminId (admins : List ℤ) (uid : ℤ) : List ℤ :=
  if uid ∈ admins then admins else admins ++ [uid]

/-- Modelled from the spec: `db.remove_admin` deletes from the AdminSet. -/
def removeAdminId (admins : List ℤ) (uid : ℤ) : List ℤ :=
  admins.filter (fun a => decide (a ≠ uid))

/-- Modelled from the spec: `db.get_transactions_summary`'s `should_send` is
the cumulative converted deposit total for the chat (§4.4, glossary). -/
def shouldSendSum (txs : List Tx) (chatId : ℤ) : ℚ :=
  (txs.filter (fun t => decide (t.chatId = chatId ∧ t.txType = TxType.din))).foldl
    (fun a t => a + t.usdt) 0

/-- Modelled from the spec: `db.get_transactions_summary`'s `send_usdt` is
the cumulative converted withdrawal plus disbursement total for the chat
(§4.4: `sent` sums Withdrawal and Disbursement converted amounts with their
stored signs). -/
def sendUsdtSum (txs : List Tx) (chatId : ℤ) : ℚ :=
  (txs.filter (fun t =>
    decide (t.chatId = chatId ∧ (t.txType = TxType.dout ∨ t.txType = TxType.dsend)))).foldl
    (fun a t => a + t.usdt) 0

/-- The 已下发 (sent) figure of the rendered settlement summary:
`sent = trunc2(summary["send_usdt"])` (app.py line 263, bot.py line 243). -/
def renderSentFigure (txs : List Tx) (chatId : ℤ) : ℚ :=
  trunc2 (sendUsdtSum txs chatId)

/-- The 应下发 (should-send) figure of the rendered settlement summary:
`should = trunc2(summary["should_send"])` (app.py line 262, bot.py line 242). -/
def renderShouldFigure (txs : List Tx) (chatId : ℤ) : ℚ :=
  trunc2 (shouldSendSum txs chatId)

/-- `is_bot_admin`: the sender is the configured OWNER_ID (when that
environment variable is set and numeric) or belongs to the AdminSet
(app.py lines 164-168, bot.py lines 149-153). -/
def isBotAdmin (ownerId : Option ℕ) (admins : List ℤ) (uid : ℤ) : Bool :=
  match ownerId with
  | some o => if (o : ℤ) = uid then true else isAdminId admins uid
  | none => isAdminId admins uid

/-! ## Command branches (shared verbatim by app.py and bot.py) -/

/-- The deposit conversion: `usdt = trunc2(amt * (1 - rate) / fx)`
(app.py line 717, bot.py line 680). -/
def depositUsdt (raw rate fx : ℚ) : ℚ := trunc2 (raw * (1 - rate) / fx)

/-- The withdrawal conversion: `usdt = round2(amt * (1 + rate) / fx)`
(app.py line 775, bot.py line 726). -/
def withdrawUsdt (raw rate fx : ℚ) : ℚ := round2 (raw * (1 + rate) / fx)

/-- 入金 branch after admin check and amount parse (app.py lines 705-752,
bot.py lines 671-706): reject with a configuration prompt when `in_fx` is 0,
otherwise convert, append the record and attach the summary message id. -/
def depositBranch (st : BotState) (chatId uid : ℤ) (amt : ℚ) (now : ℕ)
    (newMsgId : ℤ) : BotState × Reply :=
  let config := st.configs chatId
  if config.inFx = 0 then (st, Reply.needConfig)
  else
    let tx : Tx :=
      { chatId := chatId, txType := TxType.din, amount := amt,
        rate := config.inRate, fx := config.inFx,
        usdt := depositUsdt amt config.inRate config.inFx,
        operatorId := uid, createdAt := now, messageId := none }
    ({ st with txs := attachLastMsgId (addTransaction st.txs tx) newMsgId },
      Reply.summary)

/-- 出金 branch after admin check and amount parse (app.py lines 764-804,
bot.py lines 717-752). -/
def withdrawBranch (st : BotState) (chatId uid : ℤ) (amt : ℚ) (now : ℕ)
    (newMsgId : ℤ) : BotState × Reply :=
  let config := st.configs chatId
  if config.outFx = 0 then (st, Reply.needConfig)
  else
    let tx : Tx :=
      { chatId := chatId, txType := TxType.dout, amount := amt,
        rate := config.outRate, fx := config.outFx,
        usdt := withdrawUsdt amt config.outRate config.outFx,
        operatorId := uid, createdAt := now, messageId := none }
    ({ st with txs := attachLastMsgId (addTransaction st.txs tx) newMsgId },
      Reply.summary)

/-- 下发 branch after the admin check (app.py lines 812-852, bot.py lines
758-795): `val = float(text.replace("下发","").strip())`; on success a
`send` record is stored with `amount = abs(val)` and `usdt = abs(val)`
(both unsigned), on `ValueError` a format-error reply is sent. -/
def sendBranch (st : BotState) (chatId uid : ℤ) (text : List Char) (now : ℕ)
    (newMsgId : ℤ) : BotState × Reply :=
  match parseSignedFloatChars (stripEnds (removeXiafa text)) with
  | none => (st, Reply.formatError)
  | some v =>
    let tx : Tx :=
      { chatId := chatId, txType := TxType.dsend, amount := |v|,
        rate := 0, fx := 0, usdt := |v|,
        operatorId := uid, createdAt := now, messageId := none }
    ({ st with txs := attachLastMsgId (addTransaction st.txs tx) newMsgId },
      Reply.summary)

/-- 撤销 branch after admin and reply-to checks (app.py lines 599-611,
bot.py lines 563-586). -/
def undoBranch (st : BotState) (msgId : ℤ) : BotState × Reply :=
  let p := removeByMessageId st.txs msgId
  match p.1 with
  | some _ => ({ st with txs := p.2 }, Reply.undoOk)
  | none => (st, Reply.undoNotFound)

/-- Point update of the per-chat configuration map. -/
def setConfigAt (configs : ℤ → GroupConfig) (chatId : ℤ)
    (g : GroupConfig → GroupConfig) : ℤ → GroupConfig :=
  fun c => if c = chatId then g (configs c) else configs c

/-- 重置默认值 values written by app.py lines 617-623. -/
def appResetConfig : GroupConfig :=
  { inRate := 20/100, inFx := 153, outRate := 0, outFx := 142 }

/-- 重置默认值 values written by bot.py lines 592-598. -/
def botResetConfig : GroupConfig :=
  { inRate := 10/100, inFx := 153, outRate := 2/100, outFx := 137 }

/-- 设置入金费率/入金汇率/出金费率/出金汇率 branch after the admin check
(app.py lines 664-694, bot.py lines 638-660).  The source checks
`text.startswith(prefix)` and then `float(text.replace(prefix, "").strip())`;
on inputs whose remainder parses, replacing the prefix equals dropping its
six characters, which is how the remainder is modelled.  Percentages are
divided by 100. -/
def settingsBranch (st : BotState) (chatId : ℤ) (text : List Char) :
    BotState × Reply :=
  if (strL "设置入金费率").isPrefixOf text then
    match parseSignedFloatChars (stripEnds (text.drop 6)) with
    | none => (st, Reply.formatError)
    | some v =>
      let cfgs := setConfigAt st.configs chatId (fun c => { c with inRate := v / 100 })
      ({ st with configs := cfgs }, Reply.setOk)
  else if (strL "设置入金汇率").isPrefixOf text then
    match parseSignedFloatChars (stripEnds (text.drop 6)) with
    | none => (st, Reply.formatError)
    | some v =>
      let cfgs := setConfigAt st.configs chatId (fun c => { c with inFx := v })
      ({ st with configs := cfgs }, Reply.setOk)
  else if (strL "设置出金费率").isPrefixOf text then
    match parseSignedFloatChars (stripEnds (text.drop 6)) with
    | none => (st, Reply.formatError)
    | some v =>
      let cfgs := setConfigAt st.configs chatId (fun c => { c with outRate := v / 100 })
      ({ st with configs := cfgs }, Reply.setOk)
  else if (strL "设置出金汇率").isPrefixOf text then
    match parseSignedFloatChars (stripEnds (text.drop 6)) with
    | none => (st, Reply.formatError)
    | some v =>
      let cfgs := setConfigAt st.configs chatId (fun c => { c with outFx := v })
      ({ st with configs := cfgs }, Reply.setOk)
  else (st, Reply.silent)

/-! ## Group-message dispatchers

`handle_text`, group part (app.py lines 543-862, bot.py lines 506-801).
The private-chat path (which only logs and forwards) is out of scope.
`text` is the stripped message text; `now`/`dayStart` are abstract
timestamps; `newMsgId` is the Telegram id of the summary message the
handler sends (attached to the created record for later undo). -/

/-- app.py `handle_text`, group branches.  Note the deposit guard
`text.startswith("+") and not text.startswith("+0")` (line 697), the matching
withdrawal guard (line 756), and the bill-view branch for `+0`/`0`/账单
(line 856). -/
def appHandleGroupText (ownerId : Option ℕ) (st : BotState) (chatId uid : ℤ)
    (text : List Char) (replyTo : Option ReplyTo) (now dayStart : ℕ)
    (newMsgId : ℤ) : BotState × Reply :=
  if text = strL "显示机器人管理员" then
    if isBotAdmin ownerId st.admins uid then (st, Reply.adminList)
    else (st, Reply.silent)
  else if text = strL "设置机器人管理员" ∨ text = strL "添加机器人管理员" then
    if isBotAdmin ownerId st.admins uid then
      match replyTo with
      | none => (st, Reply.needReply)
      | some r => ({ st with admins := addAdminId st.admins r.userId }, Reply.adminAdded)
    else (st, Reply.silent)
  else if text = strL "删除机器人管理员" ∨ text = strL "移除机器人管理员" then
    if isBotAdmin ownerId st.admins uid then
      match replyTo with
      | none => (st, Reply.needReply)
      | some r => ({ st with admins := removeAdminId st.admins r.userId }, Reply.adminRemoved)
    else (st, Reply.silent)
  else if text = strL "撤销" then
    if isBotAdmin ownerId st.admins uid then
      match replyTo with
      | none => (st, Reply.needReply)
      | some r => undoBranch st r.msgId
    else (st, Reply.silent)
  else if text = strL "重置默认值" then
    if isBotAdmin ownerId st.admins uid then
      ({ st with configs := setConfigAt st.configs chatId (fun _ => appResetConfig) },
        Reply.resetOk)
    else (st, Reply.silent)
  else if text = strL "清除数据" then
    if isBotAdmin ownerId st.admins uid then
      ({ st with txs := clearTodayTxs st.txs chatId dayStart }, Reply.clearOk)
    else (st, Reply.silent)
  else if ((strL "设置入金费率").isPrefixOf text || (strL "设置入金汇率").isPrefixOf text ||
      (strL "设置出金费率").isPrefixOf text || (strL "设置出金汇率").isPrefixOf text) then
    if isBotAdmin ownerId st.admins uid then settingsBranch st chatId text
    else (st, Reply.silent)
  else if ((strL "+").isPrefixOf text && !(strL "+0").isPrefixOf text) then
    if isBotAdmin ownerId st.admins uid then
      match parseAmountChars text with
      | none => (st, Reply.silent)
      | some amt => depositBranch st chatId uid amt now newMsgId
    else (st, Reply.silent)
  else if ((strL "-").isPrefixOf text && !(strL "-0").isPrefixOf text) then
    if isBotAdmin ownerId st.admins uid then
      match parseAmountChars text with
      | none => (st, Reply.silent)
      | some amt => withdrawBranch st chatId uid amt now newMsgId
    else (st, Reply.silent)
  else if (strL "下发").isPrefixOf text then
    if isBotAdmin ownerId st.admins uid then sendBranch st chatId uid text now newMsgId
    else (st, Reply.silent)
  else if (text = strL "+0" ∨ text = strL "0" ∨ text = strL "账单" ∨ text = strL "查看账单") then
    (st, Reply.summary)
  else if (text = strL "更多记录" ∨ text = strL "查看更多记录" ∨
      text = strL "更多账单" ∨ text = strL "显示历史账单") then
    (st, Reply.fullSummary)
  else (st, Reply.silent)

/-- bot.py `handle_text`, group branches.  Differences from app.py: the
deposit/withdrawal guards are plain `text.startswith("+")` /
`text.startswith("-")` (lines 663, 709) with no `+0`/`-0` exclusion, the
reset branch writes `botResetConfig` (lines 592-598), and there is no
`+0`/账单 bill-view branch (only 更多记录, line 799). -/
def botHandleGroupText (ownerId : Option ℕ) (st : BotState) (chatId uid : ℤ)
    (text : List Char) (replyTo : Option ReplyTo) (now dayStart : ℕ)
    (newMsgId : ℤ) : BotState × Reply :=
  if text = strL "显示机器人管理员" then
    if isBotAdmin ownerId st.admins uid then (st, Reply.adminList)
    else (st, Reply.silent)
  else if text = strL "设置机器人管理员" ∨ text = strL "添加机器人管理员" then
    if isBotAdmin ownerId st.admins uid then
      match replyTo with
      | none => (st, Reply.needReply)
      | some r => ({ st with admins := addAdminId st.admins r.userId }, Reply.adminAdded)
    else (st, Reply.silent)
  else if text = strL "删除机器人管理员" ∨ text = strL "移除机器人管理员" then
    if isBotAdmin ownerId st.admins uid then
      match replyTo with
      | none => (st, Reply.needReply)
      | some r => ({ st with admins := removeAdminId st.admins r.userId }, Reply.adminRemoved)
    else (st, Reply.silent)
  else if text = strL "撤销" then
    if isBotAdmin ownerId st.admins uid then
      match replyTo with
      | none => (st, Reply.needReply)
      | some r => undoBranch st r.msgId
    else (st, Reply.silent)
  else if text = strL "重置默认值" then
    if isBotAdmin ownerId st.admins uid then
      ({ st with configs := setConfigAt st.configs chatId (fun _ => botResetConfig) },
        Reply.resetOk)
    else (st, Reply.silent)
  else if text = strL "清除数据" then
    if isBotAdmin ownerId st.admins uid then
      ({ st with txs := clearTodayTxs st.txs chatId dayStart }, Reply.clearOk)
    else (st, Reply.silent)
  else if ((strL "设置入金费率").isPrefixOf text || (strL "设置入金汇率").isPrefixOf text ||
      (strL "设置出金费率").isPrefixOf text || (strL "设置出金汇率").isPrefixOf text) then
    if isBotAdmin ownerId st.admins uid then settingsBranch st chatId text
    else (st, Reply.silent)
  else if ((strL "+").isPrefixOf text) then
    if isBotAdmin ownerId st.admins uid then
      match parseAmountChars text with
      | none => (st, Reply.silent)
      | some amt => depositBranch st chatId uid amt now newMsgId
    else (st, Reply.silent)
  else if ((strL "-").isPrefixOf text) then
    if isBotAdmin ownerId st.admins uid then
      match parseAmountChars text with
      | none => (st, Reply.silent)
      | some amt => withdrawBranch st chatId uid amt now newMsgId
    else (st, Reply.silent)
  else if (strL "下发").isPrefixOf text then
    if isBotAdmin ownerId st.admins uid then sendBranch st chatId uid text now newMsgId
    else (st, Reply.silent)
  else if (text = strL "更多记录" ∨ text = strL "查看更多记录" ∨
      text = strL "更多账单" ∨ text = strL "显示历史账单") then
    (st, Reply.fullSummary)
  else (st, Reply.silent)

/-! ## Web token (app.py lines 174-215, bot.py lines 157-186)

Tokens are `f"{chat_id}:{user_id}:{expires_at}:{signature}"`.  The
HMAC-SHA256 hex digest is modelled as an abstract function
`secret → data → signature`; the round-trip property holds for any such
function whose output avoids the separator character.  `expires_at` (the
integer timestamp `now + expires_hours` computed at generation time) is a
parameter; the clock at verification time is a rational timestamp. -/

/-- Decimal digit character (as produced by Python `str` of an integer). -/
def digitChar (d : ℕ) : Char := Char.ofNat (48 + d)

/-- Python `str(n)` for a natural number, as characters. -/
def natDigitsChars (n : ℕ) : List Char :=
  if n = 0 then ['0'] else ((Nat.digits 10 n).map digitChar).reverse

/-- Python `str(i)` for an integer, as characters. -/
def intChars (i : ℤ) : List Char :=
  if i < 0 then '-' :: natDigitsChars i.natAbs else natDigitsChars i.natAbs

/-- Python `"…".split(":")` on characters. -/
def splitColon : List Char → List (List Char)
  | [] => [[]]
  | c :: rest =>
    if c = ':' then [] :: splitColon rest
    else
      match splitColon rest with
      | [] => [[c]]
      | p :: ps => (c :: p) :: ps

/-- Python `int(s)` on an unsigned decimal numeral (the canonical form
`verify_token` receives from `str(int)`); other inputs raise and are `none`. -/
def parseDigitsNat (cs : List Char) : Option ℕ :=
  if cs = [] then none
  else if cs.all Char.isDigit then some (digitsNatVal cs) else none

/-- Python `int(s)` including an optional leading minus sign. -/
def parseIntChars : List Char → Option ℤ
  | [] => none
  | c :: cs =>
    if c = '-' then (parseDigitsNat cs).map (fun n : ℕ => -(n : ℤ))
    else (parseDigitsNat (c :: cs)).map (fun n : ℕ => (n : ℤ))

/-- The signed data of a token: `f"{chat_id}:{user_id}:{expires_at}"`. -/
def tokenData (chatId userId expiresAt : ℤ) : List Char :=
  intChars chatId ++ ':' :: (intChars userId ++ ':' :: intChars expiresAt)

/-- `generate_web_token`: `None` when SESSION_SECRET is unset (falsy),
otherwise the signed data followed by the HMAC hex digest. -/
def generateWebToken (secret : List Char)
    (hmacHex : List Char → List Char → List Char)
    (chatId userId expiresAt : ℤ) : Option (List Char) :=
  if secret = [] then none
  else
    let data := tokenData chatId userId expiresAt
    some (data ++ ':' :: hmacHex secret data)

/-- `verify_token`: split on `:`, require exactly 4 parts, parse the three
integers, recompute the signature over the re-rendered data, reject a
mismatched signature or an expired token, and return `{chat_id, user_id}`. -/
def verifyToken (secret : List Char)
    (hmacHex : List Char → List Char → List Char)
    (now : ℚ) (token : List Char) : Option (ℤ × ℤ) :=
  if secret = [] then none
  else
    match splitColon token with
    | [p0, p1, p2, sig] =>
      match parseIntChars p0, parseIntChars p1, parseIntChars p2 with
      | some chatId, some userId, some expiresAt =>
        if sig ≠ hmacHex secret (tokenData chatId userId expiresAt) then none
        else if (expiresAt : ℚ) < now then none
        else some (chatId, userId)
      | _, _, _ => none
    | _ => none


/-- Number of stored transactions carrying the given external reference. -/
def refCount (txs : List Tx) (m : ℤ) : ℕ :=
  txs.countP (fun t => decide (t.messageId = some m))

/-- A singleton store used by concrete witness instantiations. -/
def sampleTx : Tx :=
  { chatId := 9, txType := TxType.dsend, amount := 1, rate := 0, fx := 0,
    usdt := 1, operatorId := 7, createdAt := 0, messageId := some 5 }

/-! ### Bounds for the rounding policies -/

theorem roundHalfEvenInt_le (x : ℚ) : (roundHalfEvenInt x : ℚ) ≤ x + 1/2 := by
  unfold roundHalfEvenInt
  have h1 : (⌊x⌋ : ℚ) ≤ x := Int.floor_le x
  have h2 : x < (⌊x⌋ : ℚ) + 1 := Int.lt_floor_add_one x
  split
  · linarith
  · split
    · rename_i hlt
      push_cast
      linarith
    · split <;> push_cast <;> linarith

theorem le_roundHalfEvenInt (x : ℚ) : x - 1/2 ≤ (roundHalfEvenInt x : ℚ) := by
  unfold roundHalfEvenInt
  have h1 : (⌊x⌋ : ℚ) ≤ x := Int.floor_le x
  have h2 : x < (⌊x⌋ : ℚ) + 1 := Int.lt_floor_add_one x
  split
  · rename_i hlt
    linarith
  · split
    · push_cast; linarith
    · split <;> push_cast <;> linarith

theorem pyRound6_le (x : ℚ) : pyRound x 6 ≤ x + 1/2000000 := by
  unfold pyRound
  have h := roundHalfEvenInt_le (x * 10 ^ 6)
  norm_num at h ⊢
  linarith

theorem le_pyRound6 (x : ℚ) : x - 1/2000000 ≤ pyRound x 6 := by
  unfold pyRound
  have h := le_roundHalfEvenInt (x * 10 ^ 6)
  norm_num at h ⊢
  linarith

theorem trunc2_le (x : ℚ) : trunc2 x ≤ x + 1/2000000 := by
  unfold trunc2
  have h1 : (⌊pyRound x 6 * 100⌋ : ℚ) ≤ pyRound x 6 * 100 := Int.floor_le _
  have h2 := pyRound6_le x
  linarith

theorem lt_trunc2 (x : ℚ) : x - 1/100 - 1/2000000 < trunc2 x := by
  unfold trunc2
  have h1 : pyRound x 6 * 100 < (⌊pyRound x 6 * 100⌋ : ℚ) + 1 := Int.lt_floor_add_one _
  have h2 := le_pyRound6 x
  linarith

/-! ### Undo: not-found and idempotence -/
theorem removeByMessageId_not_found (txs : List Tx) (m : ℤ)
    (h : refCount txs m = 0) : removeByMessageId txs m = (none, txs) := by
  induction txs with
  | nil => rfl
  | cons t rest ih =>
    rw [refCount, List.countP_cons] at h
    by_cases ht : t.messageId = some m
    · simp [ht] at h
    · have h0 : refCount rest m = 0 := by
        rw [refCount]
        simpa [ht] using h
      simp [removeByMessageId, ht, ih h0]

theorem refCount_after_remove (txs : List Tx) (m : ℤ) (h : refCount txs m ≤ 1) :
    refCount (removeByMessageId txs m).2 m = 0 := by
  induction txs with
  | nil => rfl
  | cons t rest ih =>
    rw [refCount, List.countP_cons] at h
    by_cases ht : t.messageId = some m
    · have hb : (decide (t.messageId = some m)) = true := by simp [ht]
      rw [hb, if_pos rfl] at h
      have h0 : refCount rest m = 0 := by
        have h' : List.countP (fun t => decide (t.messageId = some m)) rest = 0 := by
          omega
        simpa [refCount] using h'
      simpa [removeByMessageId, ht] using h0
    · have hb : (decide (t.messageId = some m)) = false := by simp [ht]
      rw [hb] at h
      simp only [Bool.false_eq_true, if_false, add_zero] at h
      have h1 : refCount rest m ≤ 1 := by
        have h' : List.countP (fun t => decide (t.messageId = some m)) rest ≤ 1 := h
        simpa [refCount] using h'
      simpa [removeByMessageId, ht, refCount, List.countP_cons, hb] using ih h1

/-- C7: undo by external reference (modelled from the spec for the missing
`database.py`).  When no stored transaction carries the reference, the lookup
returns `None` and the store is unmutated — both handlers then reply
"未找到该消息对应的交易记录" — and since a reference is attached to at most
one record, running undo twice with the same reference never deletes a second
record: the second run is a not-found no-op. -/
theorem c7_undo_not_found_idempotent (txs : List Tx) (m : ℤ)
    (h : refCount txs m ≤ 1) :
    (refCount txs m = 0 → removeByMessageId txs m = (none, txs)) ∧
    removeByMessageId (removeByMessageId txs m).2 m =
      (none, (removeByMessageId txs m).2) ∧
    (∀ (o : Option ℕ) (st : BotState) (chatId uid tu : ℤ) (now dayStart : ℕ)
        (mid : ℤ), isBotAdmin o st.admins uid = true → refCount st.txs m = 0 →
      appHandleGroupText o st chatId uid (strL "撤销") (some ⟨tu, m⟩)
          now dayStart mid = (st, Reply.undoNotFound) ∧
      botHandleGroupText o st chatId uid (strL "撤销") (some ⟨tu, m⟩)
          now dayStart mid = (st, Reply.undoNotFound)) := by
  refine ⟨removeByMessageId_not_found txs m,
    removeByMessageId_not_found _ m (refCount_after_remove txs m h), ?_⟩
  intro o st chatId uid tu now dayStart mid hadmin h0
  have hrm := removeByMessageId_not_found st.txs m h0
  constructor
  · unfold appHandleGroupText
    rw [if_neg (by decide), if_neg (by decide), if_neg (by decide),
      if_pos (by decide : strL "撤销" = strL "撤销")]
    simp [hadmin, undoBranch, hrm]
  · unfold botHandleGroupText
    rw [if_neg (by decide), if_neg (by decide), if_neg (by decide),
      if_pos (by decide : strL "撤销" = strL "撤销")]
    simp [hadmin, undoBranch, hrm]

/-- C7 witness: a store holding one transaction referenced by message id 5;
undoing twice removes only that one record. -/
theorem c7_undo_not_found_idempotent_witness :
    refCount [sampleTx] 5 ≤ 1 ∧
    removeByMessageId (removeByMessageId [sampleTx] 5).2 5 =
      (none, (removeByMessageId [sampleTx] 5).2) :=
  ⟨by decide, (c7_undo_not_found_idempotent [sampleTx] 5 (by decide)).2.1⟩

/-! ## Claim theorems -/

/-- C3: the claim's concrete example holds (raw=5000, rate=0.02, fx=137
gives 37.23, and round-half-up agrees there), but the general statement
"rounded half-up at 2 decimals" contradicts the code: Python `round` is
round-half-even, so at the reachable tie raw=1.125, rate=0, fx=1 (sent as
`-1.125` after 设置出金费率 0 / 设置出金汇率 1) both handlers record 1.12
while round-half-up — which the spec and the functions' own 四舍五入
docstring prescribe — gives 1.13. -/
theorem c3_withdrawal_round_half_even_eval :
    withdrawUsdt 5000 (2/100) 137 = 3723/100 ∧
    specRound2Up (5000 * (1 + 2/100) / 137) = 3723/100 ∧
    withdrawUsdt (1125/1000) 0 1 = 112/100 ∧
    specRound2Up (1125/1000 * (1 + 0) / 1) = 113/100 ∧
    (appHandleGroupText (some 7) ⟨[], fun _ => ⟨0, 0, 0, 1⟩, []⟩ 9 7
        (strL "-1.125") none 0 0 100).1.txs.map (fun t => t.usdt) = [112/100] ∧
    (botHandleGroupText (some 7) ⟨[], fun _ => ⟨0, 0, 0, 1⟩, []⟩ 9 7
        (strL "-1.125") none 0 0 100).1.txs.map (fun t => t.usdt) = [112/100] := by
  refine ⟨?_, ?_, ?_, ?_, ?_, ?_⟩
  · norm_num [withdrawUsdt, round2, pyRound, roundHalfEvenInt]
  · norm_num [specRound2Up]
  · norm_num [withdrawUsdt, round2, pyRound, roundHalfEvenInt]
  · norm_num [specRound2Up]
  · have h : (appHandleGroupText (some 7) ⟨[], fun _ => ⟨0, 0, 0, 1⟩, []⟩ 9 7
        (strL "-1.125") none 0 0 100).1.txs.map (fun t => t.usdt) =
        [withdrawUsdt ((1:ℚ) + 125/10^3) 0 1] := rfl
    rw [h]
    norm_num [withdrawUsdt, round2, pyRound, roundHalfEvenInt]
  · have h : (botHandleGroupText (some 7) ⟨[], fun _ => ⟨0, 0, 0, 1⟩, []⟩ 9 7
        (strL "-1.125") none 0 0 100).1.txs.map (fun t => t.usdt) =
        [withdrawUsdt ((1:ℚ) + 125/10^3) 0 1] := rfl
    rw [h]
    norm_num [withdrawUsdt, round2, pyRound, roundHalfEvenInt]

/-- C4 counterexample: the claim's "truncated toward zero … never rounds up"
fails on the code.  For raw=9999999, rate=0, fx=10000000 (a reachable
configuration) the exact value is 0.9999999; `trunc2` first applies
`round(x, 6)`, which lifts it to 1.000000, and the subsequent floor keeps
1.00 — strictly above the toward-zero truncation 0.99. -/
theorem c4_deposit_truncation_cex :
    depositUsdt 9999999 0 10000000 = 1 ∧
    specTrunc2Zero (9999999 * (1 - 0) / 10000000) = 99/100 ∧
    depositUsdt 9999999 0 10000000 ≠ specTrunc2Zero (9999999 * (1 - 0) / 10000000) ∧
    (appHandleGroupText (some 7) ⟨[], fun _ => ⟨0, 10000000, 0, 0⟩, []⟩ 9 7
        (strL "+9999999") none 0 0 100).1.txs.map (fun t => t.usdt) = [1] := by
  refine ⟨?_, ?_, ?_, ?_⟩
  · norm_num [depositUsdt, trunc2, pyRound, roundHalfEvenInt]
  · norm_num [specTrunc2Zero]
  · norm_num [depositUsdt, specTrunc2Zero, trunc2, pyRound, roundHalfEvenInt]
  · have h : (appHandleGroupText (some 7) ⟨[], fun _ => ⟨0, 10000000, 0, 0⟩, []⟩ 9 7
        (strL "+9999999") none 0 0 100).1.txs.map (fun t => t.usdt) =
        [depositUsdt ((9999999:ℕ):ℚ) 0 10000000] := rfl
    rw [h]
    norm_num [depositUsdt, trunc2, pyRound, roundHalfEvenInt]

/-- C4 amended: the deposit conversion is `trunc2` — a floor at 2 decimals
applied after a preliminary round-half-even at 6 decimals — so it never lies
more than 5·10⁻⁷ above the exact value `raw·(1−rate)/fx` (the "never rounds
up" of the claim holds only up to that pre-rounding margin) and stays within
0.01 + 5·10⁻⁷ below it; the claim's concrete example raw=10000, rate=0.20,
fx=153 → 52.28 holds. -/
theorem c4_deposit_truncation_amended (raw rate fx : ℚ) :
    depositUsdt raw rate fx = trunc2 (raw * (1 - rate) / fx) ∧
    depositUsdt raw rate fx ≤ raw * (1 - rate) / fx + 1/2000000 ∧
    raw * (1 - rate) / fx - 1/100 - 1/2000000 < depositUsdt raw rate fx ∧
    depositUsdt 10000 (20/100) 153 = 5228/100 := by
  refine ⟨rfl, trunc2_le _, lt_trunc2 _, ?_⟩
  norm_num [depositUsdt, trunc2, pyRound, roundHalfEvenInt]

/-- C2 counterexample: the rendered 已下发 figure is `trunc2` of the sum,
not `round2`.  After the single command 下发35.046 (stored converted amount
35.046) the summary shows 35.04, while round-half-up at 2 decimals — the
policy the claim states — gives 35.05. -/
theorem c2_sent_rounding_cex :
    renderSentFigure (appHandleGroupText (some 7) ⟨[], fun _ => defaultGroupConfig, []⟩
        9 7 (strL "下发35.046") none 0 0 100).1.txs 9 = 3504/100 ∧
    specRound2Up (sendUsdtSum (appHandleGroupText (some 7)
        ⟨[], fun _ => defaultGroupConfig, []⟩
        9 7 (strL "下发35.046") none 0 0 100).1.txs 9) = 3505/100 ∧
    renderSentFigure (appHandleGroupText (some 7) ⟨[], fun _ => defaultGroupConfig, []⟩
        9 7 (strL "下发35.046") none 0 0 100).1.txs 9 ≠
      specRound2Up (sendUsdtSum (appHandleGroupText (some 7)
        ⟨[], fun _ => defaultGroupConfig, []⟩
        9 7 (strL "下发35.046") none 0 0 100).1.txs 9) := by
  have htx : (appHandleGroupText (some 7) ⟨[], fun _ => defaultGroupConfig, []⟩
      9 7 (strL "下发35.046") none 0 0 100).1.txs =
      [{ chatId := 9, txType := TxType.dsend, amount := |(35:ℚ) + 46/10^3|,
         rate := 0, fx := 0, usdt := |(35:ℚ) + 46/10^3|,
         operatorId := 7, createdAt := 0, messageId := some 100 }] := rfl
  have hsum : sendUsdtSum (appHandleGroupText (some 7)
      ⟨[], fun _ => defaultGroupConfig, []⟩
      9 7 (strL "下发35.046") none 0 0 100).1.txs 9 = 35046/1000 := by
    rw [htx]
    norm_num [sendUsdtSum]
  refine ⟨?_, ?_, ?_⟩
  · rw [renderSentFigure, hsum]
    norm_num [trunc2, pyRound, roundHalfEvenInt]
  · rw [hsum]
    norm_num [specRound2Up]
  · rw [renderSentFigure, hsum]
    norm_num [trunc2, pyRound, roundHalfEvenInt, specRound2Up]

/-- C2 amended: the 已下发 figure equals `trunc2` of the summed Withdrawal
and Disbursement converted amounts — a truncating policy (floor at 2
decimals after a round-half-even pre-rounding at 6 decimals), not `round2`;
consequently it lies within (Σ − 0.01 − 5·10⁻⁷, Σ + 5·10⁻⁷]. -/
theorem c2_sent_aggregation_amended (txs : List Tx) (chatId : ℤ) :
    renderSentFigure txs chatId = trunc2 (sendUsdtSum txs chatId) ∧
    renderSentFigure txs chatId ≤ sendUsdtSum txs chatId + 1/2000000 ∧
    sendUsdtSum txs chatId - 1/100 - 1/2000000 < renderSentFigure txs chatId :=
  ⟨rfl, trunc2_le _, lt_trunc2 _⟩

/-- C8: the two snapshots' 重置默认值 branches write different defaults —
app.py writes 20%/153/0%/142 and bot.py writes 10%/153/2%/137 — so the two
embedded reset operations disagree. -/
theorem c8_reset_defaults_divergence :
    (appHandleGroupText (some 7) ⟨[], fun _ => defaultGroupConfig, []⟩ 9 7
        (strL "重置默认值") none 0 0 100).1.configs 9 = appResetConfig ∧
    (botHandleGroupText (some 7) ⟨[], fun _ => defaultGroupConfig, []⟩ 9 7
        (strL "重置默认值") none 0 0 100).1.configs 9 = botResetConfig ∧
    appResetConfig = ⟨20/100, 153, 0, 142⟩ ∧
    botResetConfig = ⟨10/100, 153, 2/100, 137⟩ ∧
    appResetConfig ≠ botResetConfig := by
  refine ⟨rfl, rfl, rfl, rfl, ?_⟩
  simp only [appResetConfig, botResetConfig, GroupConfig.mk.injEq, not_and]
  intro h
  norm_num at h

theorem cons_ne_strL (c : Char) (t : List Char) (s : String)
    (h : (strL s).head? ≠ some c) : ¬(c :: t = strL s) := by
  intro he
  rw [← he] at h
  simp at h

theorem isPrefixOf_cons_eq_false (p : List Char) (c : Char) (t : List Char)
    (h : p.head? ≠ some c) (hp : p ≠ []) : p.isPrefixOf (c :: t) = false := by
  cases p with
  | nil => exact absurd rfl hp
  | cons a l =>
    have hac : (a == c) = false := by
      simp only [List.head?] at h
      simp only [beq_eq_false_iff_ne, ne_eq]
      intro hx
      exact h (by rw [hx])
    simp [List.isPrefixOf, hac]

theorem botDeposit_needConfig (st : BotState) (chatId uid : ℤ) (amt : ℚ)
    (now dayStart : ℕ) (newMsgId : ℤ) (o : Option ℕ) (text : List Char)
    (rt : Option ReplyTo) (hadmin : isBotAdmin o st.admins uid = true)
    (hplus : (strL "+").isPrefixOf text = true)
    (hparse : parseAmountChars text = some amt)
    (hfx : (st.configs chatId).inFx = 0) :
    botHandleGroupText o st chatId uid text rt now dayStart newMsgId =
      (st, Reply.needConfig) := by
  obtain ⟨t, rfl⟩ : ∃ t, text = '+' :: t := by
    have h' : (['+'] : List Char).isPrefixOf text = true := hplus
    cases text with
    | nil => simp [List.isPrefixOf] at h'
    | cons c rest =>
      simp only [List.isPrefixOf, Bool.and_eq_true, beq_iff_eq] at h'
      exact ⟨rest, by rw [h'.1]⟩
  unfold botHandleGroupText
  rw [if_neg (cons_ne_strL '+' t "显示机器人管理员" (by decide)),
    if_neg (not_or.mpr ⟨cons_ne_strL '+' t "设置机器人管理员" (by decide),
      cons_ne_strL '+' t "添加机器人管理员" (by decide)⟩),
    if_neg (not_or.mpr ⟨cons_ne_strL '+' t "删除机器人管理员" (by decide),
      cons_ne_strL '+' t "移除机器人管理员" (by decide)⟩),
    if_neg (cons_ne_strL '+' t "撤销" (by decide)),
    if_neg (cons_ne_strL '+' t "重置默认值" (by decide)),
    if_neg (cons_ne_strL '+' t "清除数据" (by decide))]
  rw [isPrefixOf_cons_eq_false (strL "设置入金费率") '+' t (by decide) (by decide),
    isPrefixOf_cons_eq_false (strL "设置入金汇率") '+' t (by decide) (by decide),
    isPrefixOf_cons_eq_false (strL "设置出金费率") '+' t (by decide) (by decide),
    isPrefixOf_cons_eq_false (strL "设置出金汇率") '+' t (by decide) (by decide)]
  have hptrue : (strL "+").isPrefixOf ('+' :: t) = true := hplus
  rw [hptrue]
  simp only [Bool.or_self, Bool.false_eq_true, if_false, if_true]
  rw [hadmin, if_pos rfl, hparse]
  show depositBranch st chatId uid amt now newMsgId = (st, Reply.needConfig)
  unfold depositBranch
  rw [if_pos hfx]

theorem appDeposit_needConfig (st : BotState) (chatId uid : ℤ) (amt : ℚ)
    (now dayStart : ℕ) (newMsgId : ℤ) (o : Option ℕ) (text : List Char)
    (rt : Option ReplyTo) (hadmin : isBotAdmin o st.admins uid = true)
    (hplus : (strL "+").isPrefixOf text = true)
    (hz : (strL "+0").isPrefixOf text = false)
    (hparse : parseAmountChars text = some amt)
    (hfx : (st.configs chatId).inFx = 0) :
    appHandleGroupText o st chatId uid text rt now dayStart newMsgId =
      (st, Reply.needConfig) := by
  obtain ⟨t, rfl⟩ : ∃ t, text = '+' :: t := by
    have h' : (['+'] : List Char).isPrefixOf text = true := hplus
    cases text with
    | nil => simp [List.isPrefixOf] at h'
    | cons c rest =>
      simp only [List.isPrefixOf, Bool.and_eq_true, beq_iff_eq] at h'
      exact ⟨rest, by rw [h'.1]⟩
  unfold appHandleGroupText
  rw [if_neg (cons_ne_strL '+' t "显示机器人管理员" (by decide)),
    if_neg (not_or.mpr ⟨cons_ne_strL '+' t "设置机器人管理员" (by decide),
      cons_ne_strL '+' t "添加机器人管理员" (by decide)⟩),
    if_neg (not_or.mpr ⟨cons_ne_strL '+' t "删除机器人管理员" (by decide),
      cons_ne_strL '+' t "移除机器人管理员" (by decide)⟩),
    if_neg (cons_ne_strL '+' t "撤销" (by decide)),
    if_neg (cons_ne_strL '+' t "重置默认值" (by decide)),
    if_neg (cons_ne_strL '+' t "清除数据" (by decide))]
  rw [isPrefixOf_cons_eq_false (strL "设置入金费率") '+' t (by decide) (by decide),
    isPrefixOf_cons_eq_false (strL "设置入金汇率") '+' t (by decide) (by decide),
    isPrefixOf_cons_eq_false (strL "设置出金费率") '+' t (by decide) (by decide),
    isPrefixOf_cons_eq_false (strL "设置出金汇率") '+' t (by decide) (by decide)]
  have hptrue : (strL "+").isPrefixOf ('+' :: t) = true := hplus
  rw [hptrue, hz]
  simp only [Bool.or_self, Bool.false_eq_true, if_false, Bool.true_and,
    Bool.not_false, if_true]
  rw [hadmin, if_pos rfl, hparse]
  show depositBranch st chatId uid amt now newMsgId = (st, Reply.needConfig)
  unfold depositBranch
  rw [if_pos hfx]

theorem botWithdraw_needConfig (st : BotState) (chatId uid : ℤ) (amt : ℚ)
    (now dayStart : ℕ) (newMsgId : ℤ) (o : Option ℕ) (text : List Char)
    (rt : Option ReplyTo) (hadmin : isBotAdmin o st.admins uid = true)
    (hminus : (strL "-").isPrefixOf text = true)
    (hparse : parseAmountChars text = some amt)
    (hfx : (st.configs chatId).outFx = 0) :
    botHandleGroupText o st chatId uid text rt now dayStart newMsgId =
      (st, Reply.needConfig) := by
  obtain ⟨t, rfl⟩ : ∃ t, text = '-' :: t := by
    have h' : (['-'] : List Char).isPrefixOf text = true := hminus
    cases text with
    | nil => simp [List.isPrefixOf] at h'
    | cons c rest =>
      simp only [List.isPrefixOf, Bool.and_eq_true, beq_iff_eq] at h'
      exact ⟨rest, by rw [h'.1]⟩
  unfold botHandleGroupText
  rw [if_neg (cons_ne_strL '-' t "显示机器人管理员" (by decide)),
    if_neg (not_or.mpr ⟨cons_ne_strL '-' t "设置机器人管理员" (by decide),
      cons_ne_strL '-' t "添加机器人管理员" (by decide)⟩),
    if_neg (not_or.mpr ⟨cons_ne_strL '-' t "删除机器人管理员" (by decide),
      cons_ne_strL '-' t "移除机器人管理员" (by decide)⟩),
    if_neg (cons_ne_strL '-' t "撤销" (by decide)),
    if_neg (cons_ne_strL '-' t "重置默认值" (by decide)),
    if_neg (cons_ne_strL '-' t "清除数据" (by decide))]
  rw [isPrefixOf_cons_eq_false (strL "设置入金费率") '-' t (by decide) (by decide),
    isPrefixOf_cons_eq_false (strL "设置入金汇率") '-' t (by decide) (by decide),
    isPrefixOf_cons_eq_false (strL "设置出金费率") '-' t (by decide) (by decide),
    isPrefixOf_cons_eq_false (strL "设置出金汇率") '-' t (by decide) (by decide),
    isPrefixOf_cons_eq_false (strL "+") '-' t (by decide) (by decide)]
  have hmtrue : (strL "-").isPrefixOf ('-' :: t) = true := hminus
  rw [hmtrue]
  simp only [Bool.or_self, Bool.false_eq_true, if_false, if_true]
  rw [hadmin, if_pos rfl, hparse]
  show withdrawBranch st chatId uid amt now newMsgId = (st, Reply.needConfig)
  unfold withdrawBranch
  rw [if_pos hfx]

theorem appWithdraw_needConfig (st : BotState) (chatId uid : ℤ) (amt : ℚ)
    (now dayStart : ℕ) (newMsgId : ℤ) (o : Option ℕ) (text : List Char)
    (rt : Option ReplyTo) (hadmin : isBotAdmin o st.admins uid = true)
    (hminus : (strL "-").isPrefixOf text = true)
    (hz : (strL "-0").isPrefixOf text = false)
    (hparse : parseAmountChars text = some amt)
    (hfx : (st.configs chatId).outFx = 0) :
    appHandleGroupText o st chatId uid text rt now dayStart newMsgId =
      (st, Reply.needConfig) := by
  obtain ⟨t, rfl⟩ : ∃ t, text = '-' :: t := by
    have h' : (['-'] : List Char).isPrefixOf text = true := hminus
    cases text with
    | nil => simp [List.isPrefixOf] at h'
    | cons c rest =>
      simp only [List.isPrefixOf, Bool.and_eq_true, beq_iff_eq] at h'
      exact ⟨rest, by rw [h'.1]⟩
  unfold appHandleGroupText
  rw [if_neg (cons_ne_strL '-' t "显示机器人管理员" (by decide)),
    if_neg (not_or.mpr ⟨cons_ne_strL '-' t "设置机器人管理员" (by decide),
      cons_ne_strL '-' t "添加机器人管理员" (by decide)⟩),
    if_neg (not_or.mpr ⟨cons_ne_strL '-' t "删除机器人管理员" (by decide),
      cons_ne_strL '-' t "移除机器人管理员" (by decide)⟩),
    if_neg (cons_ne_strL '-' t "撤销" (by decide)),
    if_neg (cons_ne_strL '-' t "重置默认值" (by decide)),
    if_neg (cons_ne_strL '-' t "清除数据" (by decide))]
  rw [isPrefixOf_cons_eq_false (strL "设置入金费率") '-' t (by decide) (by decide),
    isPrefixOf_cons_eq_false (strL "设置入金汇率") '-' t (by decide) (by decide),
    isPrefixOf_cons_eq_false (strL "设置出金费率") '-' t (by decide) (by decide),
    isPrefixOf_cons_eq_false (strL "设置出金汇率") '-' t (by decide) (by decide),
    isPrefixOf_cons_eq_false (strL "+") '-' t (by decide) (by decide)]
  have hmtrue : (strL "-").isPrefixOf ('-' :: t) = true := hminus
  rw [hmtrue, hz]
  simp only [Bool.or_self, Bool.false_eq_true, Bool.false_and, if_false,
    Bool.true_and, Bool.not_false, if_true]
  rw [hadmin, if_pos rfl, hparse]
  show withdrawBranch st chatId uid amt now newMsgId = (st, Reply.needConfig)
  unfold withdrawBranch
  rw [if_pos hfx]

/-- C5: when the corresponding fx of the group's configuration is zero, the
deposit and withdrawal branches (shared verbatim by app.py and bot.py) reply
with the configuration prompt and leave the state — in particular the
transaction store — untouched. -/
theorem c5_zero_fx_rejected (st : BotState) (chatId uid : ℤ) (amt : ℚ)
    (now : ℕ) (newMsgId : ℤ) :
    ((st.configs chatId).inFx = 0 →
      depositBranch st chatId uid amt now newMsgId = (st, Reply.needConfig)) ∧
    ((st.configs chatId).outFx = 0 →
      withdrawBranch st chatId uid amt now newMsgId = (st, Reply.needConfig)) ∧
    (∀ (o : Option ℕ) (text : List Char) (rt : Option ReplyTo) (dayStart : ℕ),
      isBotAdmin o st.admins uid = true →
      (strL "+").isPrefixOf text = true →
      parseAmountChars text = some amt →
      (st.configs chatId).inFx = 0 →
      botHandleGroupText o st chatId uid text rt now dayStart newMsgId =
        (st, Reply.needConfig) ∧
      ((strL "+0").isPrefixOf text = false →
        appHandleGroupText o st chatId uid text rt now dayStart newMsgId =
          (st, Reply.needConfig))) ∧
    (∀ (o : Option ℕ) (text : List Char) (rt : Option ReplyTo) (dayStart : ℕ),
      isBotAdmin o st.admins uid = true →
      (strL "-").isPrefixOf text = true →
      parseAmountChars text = some amt →
      (st.configs chatId).outFx = 0 →
      botHandleGroupText o st chatId uid text rt now dayStart newMsgId =
        (st, Reply.needConfig) ∧
      ((strL "-0").isPrefixOf text = false →
        appHandleGroupText o st chatId uid text rt now dayStart newMsgId =
          (st, Reply.needConfig))) := by
  refine ⟨?_, ?_, ?_, ?_⟩
  · intro h
    unfold depositBranch
    rw [if_pos h]
  · intro h
    unfold withdrawBranch
    rw [if_pos h]
  · intro o text rt dayStart hadmin hplus hparse hfx
    exact ⟨botDeposit_needConfig st chatId uid amt now dayStart newMsgId o text
        rt hadmin hplus hparse hfx,
      fun hz => appDeposit_needConfig st chatId uid amt now dayStart newMsgId o
        text rt hadmin hplus hz hparse hfx⟩
  · intro o text rt dayStart hadmin hminus hparse hfx
    exact ⟨botWithdraw_needConfig st chatId uid amt now dayStart newMsgId o text
        rt hadmin hminus hparse hfx,
      fun hz => appWithdraw_needConfig st chatId uid amt now dayStart newMsgId o
        text rt hadmin hminus hz hparse hfx⟩

/-- C5 witness: on the default (unconfigured) group both branches reject, and
the full dispatch of "+100" by the owner replies with the configuration
prompt without creating a transaction. -/
theorem c5_zero_fx_rejected_witness :
    ((⟨[], fun _ => defaultGroupConfig, []⟩ : BotState).configs 9).inFx = 0 ∧
    ((⟨[], fun _ => defaultGroupConfig, []⟩ : BotState).configs 9).outFx = 0 ∧
    depositBranch ⟨[], fun _ => defaultGroupConfig, []⟩ 9 7 100 0 5 =
      (⟨[], fun _ => defaultGroupConfig, []⟩, Reply.needConfig) ∧
    withdrawBranch ⟨[], fun _ => defaultGroupConfig, []⟩ 9 7 100 0 5 =
      (⟨[], fun _ => defaultGroupConfig, []⟩, Reply.needConfig) ∧
    botHandleGroupText (some 7) ⟨[], fun _ => defaultGroupConfig, []⟩ 9 7
      (strL "+100") none 0 0 5 =
      (⟨[], fun _ => defaultGroupConfig, []⟩, Reply.needConfig) :=
  ⟨rfl, rfl,
    (c5_zero_fx_rejected ⟨[], fun _ => defaultGroupConfig, []⟩ 9 7 100 0 5).1 rfl,
    (c5_zero_fx_rejected ⟨[], fun _ => defaultGroupConfig, []⟩ 9 7 100 0 5).2.1 rfl,
    ((c5_zero_fx_rejected ⟨[], fun _ => defaultGroupConfig, []⟩ 9 7 100 0 5).2.2.1
      (some 7) (strL "+100") none 0 (by decide) (by decide) (by decide) rfl).1⟩

/-- C6: bot.py's deposit guard is plain `text.startswith("+")`, so an admin
sending `+0` in a configured group creates a Deposit record with
`raw_amount = 0` and gets the summary back — contradicting the claim (and
bot.py's own /start help, which lists `+0` as the bill-view command, the
behaviour app.py implements by excluding `+0`). -/
theorem c6_zero_amount_deposit_eval :
    (botHandleGroupText (some 7) ⟨[], fun _ => ⟨1/10, 153, 1/50, 137⟩, []⟩ 9 7
        (strL "+0") none 0 0 100).1.txs.map (fun t => (t.txType, t.amount)) =
      [(TxType.din, 0)] ∧
    (botHandleGroupText (some 7) ⟨[], fun _ => ⟨1/10, 153, 1/50, 137⟩, []⟩ 9 7
        (strL "+0") none 0 0 100).2 = Reply.summary ∧
    (appHandleGroupText (some 7) ⟨[], fun _ => ⟨1/10, 153, 1/50, 137⟩, []⟩ 9 7
        (strL "+0") none 0 0 100).1.txs = [] ∧
    (appHandleGroupText (some 7) ⟨[], fun _ => ⟨1/10, 153, 1/50, 137⟩, []⟩ 9 7
        (strL "+0") none 0 0 100).2 = Reply.summary := by
  refine ⟨by decide, by decide, by decide, by decide⟩

/-- C1: both snapshots store `usdt = abs(signed_value)` for 下发, so the
converted amount does not keep the sign.  Recording 下发35.04 and then
下发-35.04 on one chat leaves two records both converted to +35.04, and the
Withdrawal+Disbursement aggregate the summary draws from is 70.08, not 0 —
the retraction increases the 'sent' figure instead of cancelling it. -/
theorem c1_disbursement_sign_eval :
    ((botHandleGroupText (some 7)
        ((botHandleGroupText (some 7) ⟨[], fun _ => defaultGroupConfig, []⟩ 9 7
          (strL "下发35.04") none 0 0 100).1) 9 7
        (strL "下发-35.04") none 1 0 101).1).txs.map (fun t => (t.amount, t.usdt)) =
      [(3504/100, 3504/100), (3504/100, 3504/100)] ∧
    sendUsdtSum ((botHandleGroupText (some 7)
        ((botHandleGroupText (some 7) ⟨[], fun _ => defaultGroupConfig, []⟩ 9 7
          (strL "下发35.04") none 0 0 100).1) 9 7
        (strL "下发-35.04") none 1 0 101).1).txs 9 = 7008/100 ∧
    sendUsdtSum ((botHandleGroupText (some 7)
        ((botHandleGroupText (some 7) ⟨[], fun _ => defaultGroupConfig, []⟩ 9 7
          (strL "下发35.04") none 0 0 100).1) 9 7
        (strL "下发-35.04") none 1 0 101).1).txs 9 ≠ 0 ∧
    (appHandleGroupText (some 7) ⟨[], fun _ => defaultGroupConfig, []⟩ 9 7
        (strL "下发-35.04") none 0 0 100).1.txs.map (fun t => t.usdt) = [3504/100] := by
  have hb : ((botHandleGroupText (some 7)
      ((botHandleGroupText (some 7) ⟨[], fun _ => defaultGroupConfig, []⟩ 9 7
        (strL "下发35.04") none 0 0 100).1) 9 7
      (strL "下发-35.04") none 1 0 101).1).txs =
      [{ chatId := 9, txType := TxType.dsend, amount := |(35:ℚ) + 4/10^2|,
         rate := 0, fx := 0, usdt := |(35:ℚ) + 4/10^2|,
         operatorId := 7, createdAt := 0, messageId := some 100 },
       { chatId := 9, txType := TxType.dsend, amount := |-((35:ℚ) + 4/10^2)|,
         rate := 0, fx := 0, usdt := |-((35:ℚ) + 4/10^2)|,
         operatorId := 7, createdAt := 1, messageId := some 101 }] := rfl
  have ha : (appHandleGroupText (some 7) ⟨[], fun _ => defaultGroupConfig, []⟩ 9 7
      (strL "下发-35.04") none 0 0 100).1.txs =
      [{ chatId := 9, txType := TxType.dsend, amount := |-((35:ℚ) + 4/10^2)|,
         rate := 0, fx := 0, usdt := |-((35:ℚ) + 4/10^2)|,
         operatorId := 7, createdAt := 0, messageId := some 100 }] := rfl
  refine ⟨?_, ?_, ?_, ?_⟩
  · rw [hb]
    norm_num
  · rw [hb]
    norm_num [sendUsdtSum, abs_of_nonneg]
  · rw [hb]
    norm_num [sendUsdtSum, abs_of_nonneg]
  · rw [ha]
    norm_num


/-! ### Web-token round trip lemmas -/

theorem digitChar_isDigit (d : ℕ) (hd : d < 10) : (digitChar d).isDigit = true := by
  interval_cases d <;> decide

theorem digitChar_toNat (d : ℕ) (hd : d < 10) : (digitChar d).toNat = 48 + d := by
  interval_cases d <;> decide

theorem natDigitsChars_all_digits (n : ℕ) :
    ∀ c ∈ natDigitsChars n, c.isDigit = true := by
  intro c hc
  unfold natDigitsChars at hc
  split at hc
  · simp only [List.mem_singleton] at hc
    subst hc
    decide
  · simp only [List.mem_reverse, List.mem_map] at hc
    obtain ⟨d, hd, rfl⟩ := hc
    exact digitChar_isDigit d (Nat.digits_lt_base (by norm_num) hd)

theorem colon_not_mem_natDigitsChars (n : ℕ) : ':' ∉ natDigitsChars n := by
  intro hc
  have h := natDigitsChars_all_digits n ':' hc
  simp at h

theorem colon_not_mem_intChars (i : ℤ) : ':' ∉ intChars i := by
  unfold intChars
  split
  · intro hc
    rcases List.mem_cons.mp hc with h | h
    · simp at h
    · exact colon_not_mem_natDigitsChars _ h
  · exact colon_not_mem_natDigitsChars _

theorem foldl_digitChar_val (L : List ℕ) (hL : ∀ d ∈ L, d < 10) (acc : ℕ) :
    ((L.map digitChar).reverse).foldl (fun a c => 10 * a + (c.toNat - 48)) acc
      = acc * 10 ^ L.length + Nat.ofDigits 10 L := by
  induction L generalizing acc with
  | nil => simp [Nat.ofDigits_nil]
  | cons d rest ih =>
    have hd : d < 10 := hL d (by simp)
    have hrest : ∀ x ∈ rest, x < 10 := fun x hx => hL x (by simp [hx])
    simp only [List.map_cons, List.reverse_cons, List.foldl_append, List.foldl_cons,
      List.foldl_nil, List.length_cons]
    rw [ih hrest, digitChar_toNat d hd, Nat.ofDigits_cons]
    have h48 : 48 + d - 48 = d := by omega
    rw [h48]
    ring

theorem digitsNatVal_natDigitsChars (n : ℕ) : digitsNatVal (natDigitsChars n) = n := by
  unfold natDigitsChars digitsNatVal
  split
  · rename_i h
    subst h
    decide
  · rename_i h
    have hlt : ∀ d ∈ Nat.digits 10 n, d < 10 :=
      fun d hd => Nat.digits_lt_base (by norm_num) hd
    have := foldl_digitChar_val (Nat.digits 10 n) hlt 0
    simpa [Nat.ofDigits_digits] using this

theorem natDigitsChars_ne_nil (n : ℕ) : natDigitsChars n ≠ [] := by
  unfold natDigitsChars
  split
  · simp
  · rename_i h
    simp [Nat.digits_ne_nil_iff_ne_zero.mpr h]

theorem parseDigitsNat_natDigitsChars (n : ℕ) :
    parseDigitsNat (natDigitsChars n) = some n := by
  unfold parseDigitsNat
  rw [if_neg (natDigitsChars_ne_nil n), if_pos, digitsNatVal_natDigitsChars]
  rw [List.all_eq_true]
  exact natDigitsChars_all_digits n

theorem parseIntChars_intChars (i : ℤ) : parseIntChars (intChars i) = some i := by
  by_cases hneg : i < 0
  · have h1 : intChars i = '-' :: natDigitsChars i.natAbs := by
      unfold intChars
      rw [if_pos hneg]
    rw [h1]
    have h2 : parseIntChars ('-' :: natDigitsChars i.natAbs) =
        (parseDigitsNat (natDigitsChars i.natAbs)).map (fun n : ℕ => -(n : ℤ)) := by
      simp [parseIntChars]
    rw [h2, parseDigitsNat_natDigitsChars]
    simp only [Option.map_some', Option.some.injEq]
    omega
  · have h1 : intChars i = natDigitsChars i.natAbs := by
      unfold intChars
      rw [if_neg hneg]
    obtain ⟨c, cs, hcs⟩ := List.exists_cons_of_ne_nil (natDigitsChars_ne_nil i.natAbs)
    have hcd : c.isDigit = true := by
      refine natDigitsChars_all_digits i.natAbs c ?_
      rw [hcs]
      exact List.mem_cons_self c cs
    have hcm : ¬(c = '-') := by
      intro h
      rw [h] at hcd
      exact absurd hcd (by decide)
    rw [h1, hcs]
    have h2 : parseIntChars (c :: cs) =
        (parseDigitsNat (c :: cs)).map (fun n : ℕ => (n : ℤ)) := by
      simp [parseIntChars, hcm]
    rw [h2, ← hcs, parseDigitsNat_natDigitsChars]
    simp only [Option.map_some', Option.some.injEq]
    omega

theorem splitColon_no_colon (a : List Char) (ha : ':' ∉ a) : splitColon a = [a] := by
  induction a with
  | nil => rfl
  | cons c rest ih =>
    have hc : ¬(c = ':') := by
      intro h
      exact ha (by simp [h])
    have hrest : ':' ∉ rest := fun h => ha (List.mem_cons_of_mem c h)
    simp only [splitColon]
    rw [if_neg hc, ih hrest]

theorem splitColon_append (a r : List Char) (ha : ':' ∉ a) :
    splitColon (a ++ ':' :: r) = a :: splitColon r := by
  induction a with
  | nil =>
    simp [splitColon]
  | cons c rest ih =>
    have hc : ¬(c = ':') := by
      intro h
      exact ha (by simp [h])
    have hrest : ':' ∉ rest := fun h => ha (List.mem_cons_of_mem c h)
    simp only [List.cons_append, splitColon, List.append_eq]
    rw [if_neg hc, ih hrest]

/-- C9: web-token round trip.  When SESSION_SECRET is set (non-empty) and
the verification clock has not passed the token's expiry, `verify_token`
applied to the token produced by `generate_web_token` recovers exactly
`{chat_id, user_id}`.  The HMAC-SHA256 hex digest is abstract; the only fact
used about it is that its output contains no `:` separator, which is true of
hexadecimal digests. -/
theorem c9_web_token_roundtrip (secret : List Char)
    (hmacHex : List Char → List Char → List Char)
    (chatId userId expiresAt : ℤ) (now : ℚ) (hsec : secret ≠ [])
    (hsig : ':' ∉ hmacHex secret (tokenData chatId userId expiresAt))
    (hexp : now ≤ (expiresAt : ℚ)) :
    generateWebToken secret hmacHex chatId userId expiresAt =
      some (tokenData chatId userId expiresAt ++ ':' ::
        hmacHex secret (tokenData chatId userId expiresAt)) ∧
    verifyToken secret hmacHex now
      (tokenData chatId userId expiresAt ++ ':' ::
        hmacHex secret (tokenData chatId userId expiresAt)) =
      some (chatId, userId) := by
  constructor
  · unfold generateWebToken
    rw [if_neg hsec]
  · unfold verifyToken
    rw [if_neg hsec]
    have hassoc : tokenData chatId userId expiresAt ++ ':' ::
        hmacHex secret (tokenData chatId userId expiresAt) =
        intChars chatId ++ ':' :: (intChars userId ++ ':' ::
          (intChars expiresAt ++ ':' ::
            hmacHex secret (tokenData chatId userId expiresAt))) := by
      simp [tokenData]
    have hsplit : splitColon (intChars chatId ++ ':' :: (intChars userId ++ ':' ::
        (intChars expiresAt ++ ':' ::
          hmacHex secret (tokenData chatId userId expiresAt)))) =
        [intChars chatId, intChars userId, intChars expiresAt,
          hmacHex secret (tokenData chatId userId expiresAt)] := by
      rw [splitColon_append _ _ (colon_not_mem_intChars chatId),
        splitColon_append _ _ (colon_not_mem_intChars userId),
        splitColon_append _ _ (colon_not_mem_intChars expiresAt),
        splitColon_no_colon _ hsig]
    rw [hassoc, hsplit]
    simp only [parseIntChars_intChars]
    rw [if_neg (by simp), if_neg (not_lt.mpr hexp)]

/-- C9 witness: a concrete round trip for chat −100, user 7, expiry 5,
verified at time 3, with a stub digest function. -/
theorem c9_web_token_roundtrip_witness :
    verifyToken ['k'] (fun _ _ => ['a', 'b']) 3
      (tokenData (-100) 7 5 ++ ':' ::
        (fun (_ _ : List Char) => ['a', 'b']) ['k'] (tokenData (-100) 7 5)) =
      some (-100, 7) :=
  (c9_web_token_roundtrip ['k'] (fun _ _ => ['a', 'b']) (-100) 7 5 3
    (by decide) (by decide) (by norm_num)).2

/-- C10: a group message whose sender is neither the configured OWNER_ID nor
in the bot-admin set never mutates stored state: in both snapshots every
mutating branch is guarded by `is_bot_admin`, and the remaining branches
(bill views) only read, so the handler returns the state unchanged — no
transaction added or deleted, no configuration change, no admin change. -/
theorem c10_non_admin_no_mutation (ownerId : Option ℕ) (st : BotState)
    (chatId uid : ℤ) (text : List Char) (replyTo : Option ReplyTo)
    (now dayStart : ℕ) (newMsgId : ℤ)
    (h : isBotAdmin ownerId st.admins uid = false) :
    (appHandleGroupText ownerId st chatId uid text replyTo now dayStart
      newMsgId).1 = st ∧
    (botHandleGroupText ownerId st chatId uid text replyTo now dayStart
      newMsgId).1 = st := by
  have key : ∀ (c : Prop) [Decidable c] (a b : BotState × Reply),
      a.1 = st → b.1 = st → (if c then a else b).1 = st := by
    intro c inst a b ha hb
    split
    · exact ha
    · exact hb
  have gate : ∀ X : BotState × Reply,
      (if isBotAdmin ownerId st.admins uid = true then X
        else (st, Reply.silent)).1 = st := by
    intro X
    rw [h]
    simp
  constructor
  · unfold appHandleGroupText
    exact key _ _ _ (gate _) (key _ _ _ (gate _) (key _ _ _ (gate _)
      (key _ _ _ (gate _) (key _ _ _ (gate _) (key _ _ _ (gate _)
      (key _ _ _ (gate _) (key _ _ _ (gate _) (key _ _ _ (gate _)
      (key _ _ _ (gate _) (key _ _ _ rfl (key _ _ _ rfl rfl)))))))))))
  · unfold botHandleGroupText
    exact key _ _ _ (gate _) (key _ _ _ (gate _) (key _ _ _ (gate _)
      (key _ _ _ (gate _) (key _ _ _ (gate _) (key _ _ _ (gate _)
      (key _ _ _ (gate _) (key _ _ _ (gate _) (key _ _ _ (gate _)
      (key _ _ _ (gate _) (key _ _ _ rfl rfl))))))))))

/-- C10 witness: user 8 (not the owner 7, not an admin) sends a 下发 command
and the state is unchanged. -/
theorem c10_non_admin_no_mutation_witness :
    isBotAdmin (some 7) (⟨[], fun _ => defaultGroupConfig, []⟩ : BotState).admins 8 =
      false ∧
    (appHandleGroupText (some 7) ⟨[], fun _ => defaultGroupConfig, []⟩ 9 8
      (strL "下发35.04") none 0 0 100).1 = ⟨[], fun _ => defaultGroupConfig, []⟩ ∧
    (botHandleGroupText (some 7) ⟨[], fun _ => defaultGroupConfig, []⟩ 9 8
      (strL "下发35.04") none 0 0 100).1 = ⟨[], fun _ => defaultGroupConfig, []⟩ :=
  ⟨by decide,
    (c10_non_admin_no_mutation (some 7) ⟨[], fun _ => defaultGroupConfig, []⟩ 9 8
      (strL "下发35.04") none 0 0 100 (by decide)).1,
    (c10_non_admin_no_mutation (some 7) ⟨[], fun _ => defaultGroupConfig, []⟩ 9 8
      (strL "下发35.04") none 0 0 100 (by decide)).2⟩
